import Mathlib

/-!
# Ranking statistics of the livestream backend

A shallow embedding of `webapp/go/stats_handler.go` and of the listing part of
`webapp/go/reaction_handler.go`, with the properties of the ranking engine and of
the statistics handlers proved about it.

Conventions.

* `int64` values are integers (`Int`); the one arithmetic operation of the handlers,
  the score `reactions + tips`, wraps as Go's does (`add64`).
* A Go slice is a `List`.
* The database is a record of scripted call results: one field per store call of a
  handler, holding what that call returns.
-/

namespace Isucon

/-! ## Ranking entries and `Less` -/

/-- A ranking entry.  `LivestreamRankingEntry` (fields `LivestreamID`, `Score`) is the
instance at `Int`, `UserRankingEntry` (fields `Username`, `Score`) the instance at
`String`; `ID` stands for `LivestreamID`, respectively `Username`. -/
structure RankingEntry (ι : Type) where
  ID : ι
  Score : Int
deriving DecidableEq, Repr

/-- Entries of the livestream ranking, `type LivestreamRankingEntry`. -/
abbrev LivestreamRankingEntry := RankingEntry Int

/-- Entries of the user ranking, `type UserRankingEntry`. -/
abbrev UserRankingEntry := RankingEntry String

/-- The slice type `LivestreamRanking`. -/
abbrev LivestreamRanking := List LivestreamRankingEntry

/-- The slice type `UserRanking`. -/
abbrev UserRanking := List UserRankingEntry

/-- The method `Less` of `LivestreamRanking` and of `UserRanking`, on the two entries
`r[i]` and `r[j]`: equal scores are decided by the identifier, otherwise the score
decides.  Livestream ids are compared as integers.  Usernames are compared as Go
compares strings, byte by byte, which on UTF-8 text is the order of the code points,
the order of `String`. -/
def Less {ι : Type} [LinearOrder ι] (ri rj : RankingEntry ι) : Bool :=
  if ri.Score = rj.Score then
    decide (ri.ID < rj.ID)
  else
    decide (ri.Score < rj.Score)

/-! ## `sort.Sort`

`sort.Sort` belongs to the Go standard library.  It rearranges the slice, using only
`Less`, into an order in which no element is `Less` than an earlier one.  The model is
insertion sort; `sortSort_eq_of_perm_of_sorted` shows that every rearrangement with
that property is the list computed here, so the choice of algorithm is immaterial. -/

/-- Insert `e` in front of the first element it is `Less` than. -/
def sortInsert {ι : Type} [LinearOrder ι] (e : RankingEntry ι) :
    List (RankingEntry ι) → List (RankingEntry ι)
  | [] => [e]
  | x :: xs => if Less e x then e :: x :: xs else x :: sortInsert e xs

/-- The call `sort.Sort(ranking)`. -/
def sortSort {ι : Type} [LinearOrder ι] (ranking : List (RankingEntry ι)) :
    List (RankingEntry ι) :=
  ranking.foldr sortInsert []

/-- What `sort.Sort` establishes: no element is `Less` than an earlier one. -/
def IsSorted {ι : Type} [LinearOrder ι] (l : List (RankingEntry ι)) : Prop :=
  l.Pairwise (fun a b => Less b a = false)

/-! ## The rank scan -/

/-- The loop `for i := len(ranking) - 1; i >= 0; i--` of the rank computation, run over
the entries still to be visited (last index first) with the current value of `rank`:
it stops at the first entry of the target and adds one for every other entry. -/
def scanFrom {ι : Type} [DecidableEq ι] (target : ι) : List (RankingEntry ι) → Nat → Nat
  | [], rank => rank
  | entry :: rest, rank =>
    if entry.ID = target then rank else scanFrom target rest (rank + 1)

/-- The rank computation `var rank int64 = 1; for ... { ... rank++ }` on a ranking
slice.  The counter is bounded by the length of the slice plus one, so it is not
reduced modulo `2^64`. -/
def rankScan {ι : Type} [DecidableEq ι] (ranking : List (RankingEntry ι)) (target : ι) : Nat :=
  scanFrom target ranking.reverse 1

/-- The rank the handlers compute for `target` from the appended entries:
`sort.Sort(ranking)` followed by the scan. -/
def computeRank {ι : Type} [LinearOrder ι] (ranking : List (RankingEntry ι)) (target : ι) : Nat :=
  rankScan (sortSort ranking) target

/-- The order of the specification: the key `(score, subject id)`, compared
lexicographically, score first.  Written with the library's lexicographic order on
pairs, independently of `Less`. -/
def keyLt {ι : Type} [LinearOrder ι] (a b : RankingEntry ι) : Prop :=
  toLex (a.Score, a.ID) < toLex (b.Score, b.ID)

instance {ι : Type} [LinearOrder ι] (a b : RankingEntry ι) : Decidable (keyLt a b) := by
  unfold keyLt; infer_instance

/-! ## The store, the transaction and the response -/

/-- An error of a store call, told apart the way the handlers do:
`errors.Is(err, sql.ErrNoRows)` holds (`ErrNoRows`) or it does not (`failure`). -/
inductive DbError
  | ErrNoRows
  | failure
deriving DecidableEq

/-- What a store call returns: the fetched value, or an error. -/
abbrev DbResult (α : Type) := Except DbError α

/-- The error of a call result, `none` standing for `err == nil`. -/
def DbResult.status {α : Type} : DbResult α → Option DbError
  | .ok _ => none
  | .error e => some e

/-- The test `err != nil && !errors.Is(err, sql.ErrNoRows)`. -/
def DbResult.hardError {α : Type} : DbResult α → Bool
  | .error .failure => true
  | _ => false

/-- The destination variable after the call: the fetched value, or the zero value the
variable was declared with when the call returned an error. -/
def DbResult.dest {α : Type} (zero : α) : DbResult α → α
  | .ok v => v
  | .error _ => zero

/-- The store calls of the three handlers. -/
inductive StoreCall
  | BeginTxx
  | getUserID
  | selectUsers
  | selectReactionCounts
  | selectTipSums
  | selectLivestreamIDs
  | getLivecomments
  | getViewersCount
  | getFavoriteEmoji
  | getLivestream
  | getMaxTip
  | getTotalReactions
  | getTotalReports
  | selectReactions
  | fillReactionsResponse
  | Commit
deriving DecidableEq

/-- The state of a transaction. -/
inductive TxState
  | open
  | committed
  | rolledBack
deriving DecidableEq

/-- The call `tx.Commit()`, with whether the store accepts it.  A failed commit ends the
transaction without committing it; on a finished transaction the call changes nothing. -/
def TxState.Commit (accepted : Bool) : TxState → TxState
  | .open => if accepted then .committed else .rolledBack
  | s => s

/-- The call `tx.Rollback()`: it ends an open transaction and is a no-op on a finished
one (after `Commit` it returns `sql.ErrTxDone`, which the handlers discard). -/
def TxState.Rollback : TxState → TxState
  | .open => .rolledBack
  | s => s

/-- How a handler invocation ends: with `echo.NewHTTPError(code, message)` (the text of
the underlying error, which the handlers append to some messages, is left out), with
`c.JSON(code, body)`, or with a nil pointer dereference. -/
inductive Response (β : Type)
  | httpError (code : Nat) (message : String)
  | json (code : Nat) (body : β)
  | panicked
deriving DecidableEq

/-- The part of a handler that runs after `defer tx.Rollback()`: its response, the state
in which it leaves the transaction, and the store calls it issued, each with the error
it returned. -/
structure Body (β : Type) where
  response : Response β
  tx : TxState
  calls : List (StoreCall × Option DbError)

/-- A run of a handler: its response, the final state of the transaction (`none` when
none was begun), and the store calls issued, in order, each with the error it
returned. -/
structure Run (β : Type) where
  response : Response β
  tx : Option TxState
  calls : List (StoreCall × Option DbError)

/-- The exit of a handler that has begun a transaction: the deferred `tx.Rollback()`
runs on every return and on a panic. -/
def deferRollback {β : Type} (begin : StoreCall × Option DbError) (b : Body β) : Run β :=
  { response := b.response, tx := some b.tx.Rollback, calls := begin :: b.calls }

/-! ## Integers and maps -/

/-- Reduction of an integer to the range of `int64` (two's complement). -/
def wrap64 (x : Int) : Int := (x + 2 ^ 63) % 2 ^ 64 - 2 ^ 63

/-- Addition of `int64` values in Go. -/
def add64 (a b : Int) : Int := wrap64 (a + b)

/-- A Go map with `int64` keys, as the list of its key-value pairs, one pair per key.
The values of the handlers' maps are pointers to structs allocated one per key, so
writing through the pointer is updating the value stored under the key. -/
abbrev GoMap (V : Type) := List (Int × V)

/-- The assignment `m[k] = v`. -/
def GoMap.set {V : Type} : GoMap V → Int → V → GoMap V
  | [], k, v => [(k, v)]
  | (k', v') :: m, k, v => if k' = k then (k, v) :: m else (k', v') :: GoMap.set m k v

/-- The lookup `m[k]`; `none` is the nil pointer of a missing key. -/
def GoMap.get? {V : Type} : GoMap V → Int → Option V
  | [], _ => none
  | (k', v') :: m, k => if k' = k then some v' else GoMap.get? m k

/-- The assignment `m[k].field = c`, where `f` writes the field: it dereferences the
pointer stored under `k`, and `none` is the nil pointer dereference of a missing key. -/
def GoMap.modify {V : Type} : GoMap V → Int → (V → V) → Option (GoMap V)
  | [], _, _ => none
  | (k', v') :: m, k, f =>
    if k' = k then some ((k', f v') :: m)
    else (GoMap.modify m k f).map (fun m' => (k', v') :: m')

/-- An order in which `for ... := range m` visits the pairs of a map.  Go leaves the
order unspecified: it is some rearrangement of the pairs. -/
structure RangeOrder (α : Type) where
  visit : List α → List α
  perm : ∀ l, (visit l).Perm l

/-- The order that visits the pairs as they are listed. -/
def RangeOrder.listed (α : Type) : RangeOrder α :=
  { visit := fun l => l, perm := fun l => List.Perm.refl l }

/-- A row of an aggregation result: the subject (`user_id`, `livestream_id`) and its
`count`. -/
structure CountRow where
  ID : Int
  Count : Int
deriving DecidableEq

/-- The loops `for _, r := range rows { m[r.ID].field = r.Count }`, where `setField`
writes the field. -/
def storeCounts {V : Type} (setField : V → Int → V) : GoMap V → List CountRow → Option (GoMap V)
  | m, [] => some m
  | m, r :: rows =>
    match GoMap.modify m r.ID (fun v => setField v r.Count) with
    | none => none
    | some m' => storeCounts setField m' rows

/-- The call `sqlx.In(query, ids)` of the library `sqlx`, which fails on an empty slice
and otherwise expands the placeholder to one parameter per element. -/
def sqlxIn (ids : List Int) : Except Unit (List Int) :=
  if ids.isEmpty then .error () else .ok ids

/-! ## `getUserStatisticsHandler` -/

/-- The response body `UserStatistics`. -/
structure UserStatistics where
  Rank : Int
  ViewersCount : Int
  TotalReactions : Int
  TotalLivecomments : Int
  TotalTip : Int
  FavoriteEmoji : String
deriving DecidableEq

/-- A row of `SELECT id, name FROM users`. -/
structure UserRow where
  ID : Int
  Name : String
deriving DecidableEq

/-- The struct the user map points to. -/
structure UserAgg where
  name : String
  reactions : Int
  tips : Int
deriving DecidableEq

/-- The result of `verifyUserSession` and of every store call the user statistics
handler can issue, in the order of the calls. -/
structure UserStatsStore where
  verifyUserSession : Option (Nat × String)
  BeginTxx : DbResult Unit
  userID : DbResult Int
  users : DbResult (List UserRow)
  reactions : DbResult (List CountRow)
  tips : DbResult (List CountRow)
  livestreamIDs : DbResult (List Int)
  livecomments : DbResult (Int × Int)
  viewersCount : DbResult Int
  favoriteEmoji : DbResult String

/-- The loop `for _, u := range users { userMap[u.ID] = &struct{...}{name: u.Name} }`. -/
def makeUserMap (users : List UserRow) : GoMap UserAgg :=
  users.foldl (fun m u => GoMap.set m u.ID { name := u.Name, reactions := 0, tips := 0 }) []

/-- The loop `for _, u := range userMap { ... append ... }` that builds the ranking
slice, with the score `u.reactions + u.tips`. -/
def userRanking (ord : RangeOrder (Int × UserAgg)) (userMap : GoMap UserAgg) :
    List UserRankingEntry :=
  (ord.visit userMap).map (fun p => { ID := p.2.name, Score := add64 p.2.reactions p.2.tips })

/-- The ranking slice the handler builds from the fetched users and the two aggregation
results (lines 104 to 159 without the store calls); `none` is a nil pointer
dereference. -/
def buildUserRanking (ord : RangeOrder (Int × UserAgg)) (users : List UserRow)
    (reactions tips : List CountRow) : Option (List UserRankingEntry) :=
  match storeCounts (fun u c => { u with reactions := c }) (makeUserMap users) reactions with
  | none => none
  | some userMap =>
    match storeCounts (fun u c => { u with tips := c }) userMap tips with
    | none => none
    | some userMap => some (userRanking ord userMap)

/-- The body of `getUserStatisticsHandler` after `defer tx.Rollback()`. -/
def userStatisticsBody (ord : RangeOrder (Int × UserAgg)) (db : UserStatsStore)
    (username : String) : Body UserStatistics :=
  let c₁ := [(StoreCall.getUserID, db.userID.status)]
  match db.userID with
  | .error .ErrNoRows =>
    ⟨.httpError 400 "not found user that has the given username", .open, c₁⟩
  | .error .failure => ⟨.httpError 500 "failed to get user: ", .open, c₁⟩
  | .ok userID =>
  let c₂ := c₁ ++ [(StoreCall.selectUsers, db.users.status)]
  match db.users with
  | .error _ => ⟨.httpError 500 "failed to get users: ", .open, c₂⟩
  | .ok users =>
  let userMap := makeUserMap users
  let c₃ := c₂ ++ [(StoreCall.selectReactionCounts, db.reactions.status)]
  if db.reactions.hardError then
    ⟨.httpError 500 "failed to count reactions: ", .open, c₃⟩
  else
  match storeCounts (fun u c => { u with reactions := c }) userMap (db.reactions.dest []) with
  | none => ⟨.panicked, .open, c₃⟩
  | some userMap =>
  let c₄ := c₃ ++ [(StoreCall.selectTipSums, db.tips.status)]
  if db.tips.hardError then
    ⟨.httpError 500 "failed to count tips: ", .open, c₄⟩
  else
  match storeCounts (fun u c => { u with tips := c }) userMap (db.tips.dest []) with
  | none => ⟨.panicked, .open, c₄⟩
  | some userMap =>
  let ranking := userRanking ord userMap
  let rank := rankScan (sortSort ranking) username
  let c₅ := c₄ ++ [(StoreCall.selectLivestreamIDs, db.livestreamIDs.status)]
  if db.livestreamIDs.hardError then
    ⟨.httpError 500 "failed to get livestreams: ", .open, c₅⟩
  else
  let livestreamIDs := db.livestreamIDs.dest []
  match sqlxIn livestreamIDs with
  | .error _ => ⟨.httpError 500 "failed to create livecomments query: ", .open, c₅⟩
  | .ok _ =>
  let c₆ := c₅ ++ [(StoreCall.getLivecomments, db.livecomments.status)]
  if db.livecomments.hardError then
    ⟨.httpError 500 "failed to get livecomments: ", .open, c₆⟩
  else
  let livecomments := db.livecomments.dest (0, 0)
  match sqlxIn livestreamIDs with
  | .error _ =>
    ⟨.httpError 500 "failed to create livestream_view_history query: ", .open, c₆⟩
  | .ok _ =>
  let c₇ := c₆ ++ [(StoreCall.getViewersCount, db.viewersCount.status)]
  if db.viewersCount.hardError then
    ⟨.httpError 500 "failed to get livestream_view_history: ", .open, c₇⟩
  else
  let viewersCount := db.viewersCount.dest 0
  let c₈ := c₇ ++ [(StoreCall.getFavoriteEmoji, db.favoriteEmoji.status)]
  if db.favoriteEmoji.hardError then
    ⟨.httpError 500 "failed to find favorite emoji: ", .open, c₈⟩
  else
  let favoriteEmoji := db.favoriteEmoji.dest ""
  match GoMap.get? userMap userID with
  | none => ⟨.panicked, .open, c₈⟩
  | some u =>
    ⟨.json 200
      { Rank := rank
        ViewersCount := viewersCount
        TotalReactions := u.reactions
        TotalLivecomments := livecomments.1
        TotalTip := livecomments.2
        FavoriteEmoji := favoriteEmoji },
      .open, c₈⟩

/-- The handler `getUserStatisticsHandler`, for the path parameter `username`. -/
def getUserStatisticsHandler (ord : RangeOrder (Int × UserAgg)) (db : UserStatsStore)
    (username : String) : Run UserStatistics :=
  match db.verifyUserSession with
  | some (code, message) => ⟨.httpError code message, none, []⟩
  | none =>
    match db.BeginTxx with
    | .error e =>
      ⟨.httpError 500 "failed to begin transaction: ", none, [(StoreCall.BeginTxx, some e)]⟩
    | .ok _ => deferRollback (StoreCall.BeginTxx, none) (userStatisticsBody ord db username)

/-! ## `getLivestreamStatisticsHandler` -/

/-- The function `strconv.Atoi` of the Go standard library on a run of digits: the value
read so far is `acc`; a character that is not a decimal digit is a syntax error. -/
def parseDigits : List Char → Nat → Option Nat
  | [], acc => some acc
  | c :: cs, acc =>
    if c.isDigit then parseDigits cs (acc * 10 + (c.toNat - 48)) else none

/-- The function `strconv.Atoi` on the characters of its argument: an optional sign, then
at least one decimal digit, the value within the 64-bit range of `int`; `none` stands
for a returned error. -/
def atoiChars : List Char → Option Int
  | [] => none
  | '-' :: ds =>
    match ds, parseDigits ds 0 with
    | _ :: _, some n => if n ≤ 2 ^ 63 then some (-(n : Int)) else none
    | _, _ => none
  | '+' :: ds =>
    match ds, parseDigits ds 0 with
    | _ :: _, some n => if n < 2 ^ 63 then some (n : Int) else none
    | _, _ => none
  | ds =>
    match parseDigits ds 0 with
    | some n => if n < 2 ^ 63 then some (n : Int) else none
    | none => none

/-- The call `strconv.Atoi(s)`; `none` stands for a returned error. -/
def Atoi (s : String) : Option Int := atoiChars s.data

/-- The response body `LivestreamStatistics`. -/
structure LivestreamStatistics where
  Rank : Int
  ViewersCount : Int
  TotalReactions : Int
  TotalReports : Int
  MaxTip : Int
deriving DecidableEq

/-- The struct the livestream map points to. -/
structure LivestreamAgg where
  reactions : Int
  totalTips : Int
deriving DecidableEq

/-- The result of `verifyUserSession` and of every store call the livestream statistics
handler can issue, in the order of the calls. -/
structure LivestreamStatsStore where
  verifyUserSession : Option (Nat × String)
  BeginTxx : DbResult Unit
  livestream : DbResult Int
  livestreamIDs : DbResult (List Int)
  reactions : DbResult (List CountRow)
  totalTips : DbResult (List CountRow)
  viewersCount : DbResult Int
  maxTip : DbResult Int
  totalReactions : DbResult Int
  totalReports : DbResult Int
  Commit : DbResult Unit

/-- The loop `for _, id := range livestreamIDs { livestreamMap[id] = &struct{...}{} }`. -/
def makeLivestreamMap (livestreamIDs : List Int) : GoMap LivestreamAgg :=
  livestreamIDs.foldl (fun m id => GoMap.set m id { reactions := 0, totalTips := 0 }) []

/-- The loop `for id, v := range livestreamMap { ... append ... }` that builds the ranking
slice, with the score `v.reactions + v.totalTips`. -/
def livestreamRanking (ord : RangeOrder (Int × LivestreamAgg))
    (livestreamMap : GoMap LivestreamAgg) : List LivestreamRankingEntry :=
  (ord.visit livestreamMap).map
    (fun p => { ID := p.1, Score := add64 p.2.reactions p.2.totalTips })

/-- The ranking slice the handler builds from the fetched livestream ids and the two
aggregation results (lines 267 to 309 without the store calls); `none` is a nil pointer
dereference. -/
def buildLivestreamRanking (ord : RangeOrder (Int × LivestreamAgg)) (livestreamIDs : List Int)
    (reactions totalTips : List CountRow) : Option (List LivestreamRankingEntry) :=
  match storeCounts (fun v c => { v with reactions := c }) (makeLivestreamMap livestreamIDs)
      reactions with
  | none => none
  | some livestreamMap =>
    match storeCounts (fun v c => { v with totalTips := c }) livestreamMap totalTips with
    | none => none
    | some livestreamMap => some (livestreamRanking ord livestreamMap)

/-- The body of `getLivestreamStatisticsHandler` after `defer tx.Rollback()`, for the
parsed path parameter `livestreamID`. -/
def livestreamStatisticsBody (ord : RangeOrder (Int × LivestreamAgg))
    (db : LivestreamStatsStore) (livestreamID : Int) : Body LivestreamStatistics :=
  let c₁ := [(StoreCall.getLivestream, db.livestream.status)]
  match db.livestream with
  | .error .ErrNoRows => ⟨.httpError 400 "cannot get stats of not found livestream", .open, c₁⟩
  | .error .failure => ⟨.httpError 500 "failed to get livestream: ", .open, c₁⟩
  | .ok _ =>
  let c₂ := c₁ ++ [(StoreCall.selectLivestreamIDs, db.livestreamIDs.status)]
  if db.livestreamIDs.hardError then
    ⟨.httpError 500 "failed to get livestreams: ", .open, c₂⟩
  else
  let livestreamMap := makeLivestreamMap (db.livestreamIDs.dest [])
  let c₃ := c₂ ++ [(StoreCall.selectReactionCounts, db.reactions.status)]
  if db.reactions.hardError then
    ⟨.httpError 500 "failed to count reactions: ", .open, c₃⟩
  else
  match storeCounts (fun v c => { v with reactions := c }) livestreamMap
      (db.reactions.dest []) with
  | none => ⟨.panicked, .open, c₃⟩
  | some livestreamMap =>
  let c₄ := c₃ ++ [(StoreCall.selectTipSums, db.totalTips.status)]
  if db.totalTips.hardError then
    ⟨.httpError 500 "failed to count tips: ", .open, c₄⟩
  else
  match storeCounts (fun v c => { v with totalTips := c }) livestreamMap
      (db.totalTips.dest []) with
  | none => ⟨.panicked, .open, c₄⟩
  | some livestreamMap =>
  let ranking := livestreamRanking ord livestreamMap
  let rank := rankScan (sortSort ranking) livestreamID
  let c₅ := c₄ ++ [(StoreCall.getViewersCount, db.viewersCount.status)]
  if db.viewersCount.hardError then
    ⟨.httpError 500 "failed to count livestream viewers: ", .open, c₅⟩
  else
  let viewersCount := db.viewersCount.dest 0
  let c₆ := c₅ ++ [(StoreCall.getMaxTip, db.maxTip.status)]
  if db.maxTip.hardError then
    ⟨.httpError 500 "failed to find maximum tip livecomment: ", .open, c₆⟩
  else
  let maxTip := db.maxTip.dest 0
  let c₇ := c₆ ++ [(StoreCall.getTotalReactions, db.totalReactions.status)]
  if db.totalReactions.hardError then
    ⟨.httpError 500 "failed to count total reactions: ", .open, c₇⟩
  else
  let totalReactions := db.totalReactions.dest 0
  let c₈ := c₇ ++ [(StoreCall.getTotalReports, db.totalReports.status)]
  if db.totalReports.hardError then
    ⟨.httpError 500 "failed to count total spam reports: ", .open, c₈⟩
  else
  let totalReports := db.totalReports.dest 0
  let c₉ := c₈ ++ [(StoreCall.Commit, db.Commit.status)]
  match db.Commit with
  | .error _ => ⟨.httpError 500 "failed to commit: ", TxState.open.Commit false, c₉⟩
  | .ok _ =>
    ⟨.json 200
      { Rank := rank
        ViewersCount := viewersCount
        MaxTip := maxTip
        TotalReactions := totalReactions
        TotalReports := totalReports },
      TxState.open.Commit true, c₉⟩

/-- The handler `getLivestreamStatisticsHandler`, for the text of the path parameter
`livestream_id`. -/
def getLivestreamStatisticsHandler (ord : RangeOrder (Int × LivestreamAgg))
    (db : LivestreamStatsStore) (livestreamIDParam : String) : Run LivestreamStatistics :=
  match db.verifyUserSession with
  | some (code, message) => ⟨.httpError code message, none, []⟩
  | none =>
    match Atoi livestreamIDParam with
    | none => ⟨.httpError 400 "livestream_id in path must be integer", none, []⟩
    | some livestreamID =>
      match db.BeginTxx with
      | .error e =>
        ⟨.httpError 500 "failed to begin transaction: ", none, [(StoreCall.BeginTxx, some e)]⟩
      | .ok _ =>
        deferRollback (StoreCall.BeginTxx, none) (livestreamStatisticsBody ord db livestreamID)

/-! ## `getReactionsHandler` -/

/-- A row of the table `reactions`, `type ReactionModel`. -/
structure ReactionModel where
  ID : Int
  EmojiName : String
  UserID : Int
  LivestreamID : Int
  CreatedAt : Int
deriving DecidableEq

/-- The result of `verifyUserSession` and of the store calls of the reactions listing.
The select is answered per query text and livestream id.  `fillReactionsResponse`
expands the rows with helpers that belong to other files; its outcome is scripted, and
`ρ` is the type `Reaction` of the expanded rows. -/
structure ReactionsStore (ρ : Type) where
  verifyUserSession : Option (Nat × String)
  BeginTxx : DbResult Unit
  selectReactions : String → Int → DbResult (List ReactionModel)
  fillReactionsResponse : List ReactionModel → Except Unit (List ρ)
  Commit : DbResult Unit

/-- A run of the reactions listing: its response, the final state of the transaction
(`none` when none was begun), and the text of the reactions query when that query was
issued. -/
structure ReactionsRun (ρ : Type) where
  response : Response (List ρ)
  tx : Option TxState
  query : Option String

/-- The query text `getReactionsHandler` starts from. -/
def reactionsBaseQuery : String :=
  "SELECT * FROM reactions WHERE livestream_id = ? ORDER BY created_at DESC"

/-- The query text after the block `if c.QueryParam("limit") != "" { ... }`, where
`fmt.Sprintf(" LIMIT %d", limit)` prints the parsed value in decimal; `none` stands for
the return, inside the block, on a limit that `strconv.Atoi` rejects. -/
def reactionsQuery (limitParam : String) : Option String :=
  if limitParam ≠ "" then
    match Atoi limitParam with
    | none => none
    | some limit => some (reactionsBaseQuery ++ (" LIMIT " ++ toString limit))
  else
    some reactionsBaseQuery

/-- The handler `getReactionsHandler`, for the text of the path parameter
`livestream_id` and of the query parameter `limit` (empty when absent). -/
def getReactionsHandler {ρ : Type} (db : ReactionsStore ρ)
    (livestreamIDParam limitParam : String) : ReactionsRun ρ :=
  match db.verifyUserSession with
  | some (code, message) => ⟨.httpError code message, none, none⟩
  | none =>
  match Atoi livestreamIDParam with
  | none => ⟨.httpError 400 "livestream_id in path must be integer", none, none⟩
  | some livestreamID =>
  match db.BeginTxx with
  | .error _ => ⟨.httpError 500 "failed to begin transaction: ", none, none⟩
  | .ok _ =>
  match reactionsQuery limitParam with
  | none =>
    ⟨.httpError 400 "limit query parameter must be integer", some TxState.open.Rollback, none⟩
  | some query =>
  match db.selectReactions query livestreamID with
  | .error _ =>
    ⟨.httpError 404 "failed to get reactions", some TxState.open.Rollback, some query⟩
  | .ok reactionModels =>
  match (if reactionModels.length > 0 then db.fillReactionsResponse reactionModels
      else .ok []) with
  | .error _ =>
    ⟨.httpError 500 "failed to fill reactions: ", some TxState.open.Rollback, some query⟩
  | .ok reactions =>
  match db.Commit with
  | .error _ =>
    ⟨.httpError 500 "failed to commit: ", some (TxState.open.Commit false).Rollback,
      some query⟩
  | .ok _ => ⟨.json 200 reactions, some (TxState.open.Commit true).Rollback, some query⟩

/-! ## The favorite emoji query

The statement `SELECT r.emoji_name ... GROUP BY emoji_name ORDER BY COUNT(*) DESC,
emoji_name DESC LIMIT 1` is evaluated by the database.  It is modelled on the list of
the emoji names of the reactions on the livestreams of the user, with names compared
as strings, character by character. -/

/-- The rows of `GROUP BY emoji_name` with `COUNT(*)`: one row per distinct name, with
the number of its occurrences. -/
def groupByEmojiName (emojiNames : List String) : List (String × Nat) :=
  emojiNames.dedup.map (fun e => (e, emojiNames.count e))

/-- The order `ORDER BY COUNT(*) DESC, emoji_name DESC`: whether row `a` is placed before
row `b`. -/
def orderedBefore (a b : String × Nat) : Bool :=
  decide (b.2 < a.2) || (decide (a.2 = b.2) && decide (b.1 < a.1))

/-- The clause `LIMIT 1` on the ordered rows: the row that is placed before the others. -/
def firstRow : List (String × Nat) → Option (String × Nat)
  | [] => none
  | r :: rows =>
    match firstRow rows with
    | none => some r
    | some b => if orderedBefore r b then some r else some b

/-- The row set of the favorite emoji query: the selected `emoji_name`, if there is a
row. -/
def favoriteEmojiQuery (emojiNames : List String) : Option String :=
  (firstRow (groupByEmojiName emojiNames)).map (fun r => r.1)

/-- The call `tx.GetContext(ctx, &favoriteEmoji, query, username)` on a store that
evaluates the query without failure: the row, or `sql.ErrNoRows` when there is none. -/
def favoriteEmojiGet (emojiNames : List String) : DbResult String :=
  match favoriteEmojiQuery emojiNames with
  | some e => .ok e
  | none => .error .ErrNoRows

/-! ## Sample data -/

/-- Three users: alice, bob and carol. -/
def sampleUsers : List UserRow :=
  [{ ID := 1, Name := "alice" }, { ID := 2, Name := "bob" }, { ID := 3, Name := "carol" }]

/-- A reaction count for alice (subject 1) only. -/
def sampleReactions : List CountRow := [{ ID := 1, Count := 5 }]

/-- Tip sums for alice (subject 1) and bob (subject 2); carol (subject 3) has no row in
either aggregation result. -/
def sampleTips : List CountRow := [{ ID := 2, Count := 200 }, { ID := 1, Count := 300 }]

/-- A store for a request of the statistics of alice in which every call succeeds; alice
owns the livestreams 10 and 11. -/
def sampleUserStore : UserStatsStore :=
  { verifyUserSession := none
    BeginTxx := .ok ()
    userID := .ok 1
    users := .ok sampleUsers
    reactions := .ok sampleReactions
    tips := .ok sampleTips
    livestreamIDs := .ok [10, 11]
    livecomments := .ok (3, 300)
    viewersCount := .ok 7
    favoriteEmoji := .ok "tada" }

/-- A store for a request of the statistics of alice, an existing user who owns no
livestream (so no reaction and no tip is counted for her, and the query for her
livestream ids returns the empty list), with any results for the three calls that
follow that query. -/
def storeWithoutLivestreams (livecomments : DbResult (Int × Int))
    (viewersCount : DbResult Int) (favoriteEmoji : DbResult String) : UserStatsStore :=
  { verifyUserSession := none
    BeginTxx := .ok ()
    userID := .ok 1
    users := .ok sampleUsers
    reactions := .ok []
    tips := .ok [{ ID := 2, Count := 200 }]
    livestreamIDs := .ok []
    livecomments := livecomments
    viewersCount := viewersCount
    favoriteEmoji := favoriteEmoji }

/-- A store for a request of the statistics of livestream 1 in which every call
succeeds. -/
def sampleLivestreamStore : LivestreamStatsStore :=
  { verifyUserSession := none
    BeginTxx := .ok ()
    livestream := .ok 1
    livestreamIDs := .ok [1, 2, 3]
    reactions := .ok sampleReactions
    totalTips := .ok sampleTips
    viewersCount := .ok 7
    maxTip := .ok 200
    totalReactions := .ok 5
    totalReports := .ok 0
    Commit := .ok () }

/-- A store for the reactions listing in which every call succeeds and no reaction is
found. -/
def sampleReactionsStore : ReactionsStore Unit :=
  { verifyUserSession := none
    BeginTxx := .ok ()
    selectReactions := fun _ _ => .ok []
    fillReactionsResponse := fun _ => .ok []
    Commit := .ok () }

/-- A store for the reactions listing of an authenticated request in which the select
of the reactions fails with the error `e`, with any behaviour of the calls that would
follow. -/
def storeFailingSelect (ρ : Type) (e : DbError)
    (fillReactionsResponse : List ReactionModel → Except Unit (List ρ))
    (commit : DbResult Unit) : ReactionsStore ρ :=
  { verifyUserSession := none
    BeginTxx := .ok ()
    selectReactions := fun _ _ => .error e
    fillReactionsResponse := fillReactionsResponse
    Commit := commit }

/-- A store for a request of the statistics of alice, who owns livestreams that have
no reaction: the favorite emoji query has no row. -/
def sampleStoreWithoutReactions : UserStatsStore :=
  { sampleUserStore with reactions := .ok [], favoriteEmoji := favoriteEmojiGet [] }

/-- A store for a request of the statistics of livestream 9 in which every call
succeeds and the lookup of livestream 9 finds it, while the list of all livestreams,
which is 1, 2 and 3, lacks it. -/
def sampleStoreLackingTarget : LivestreamStatsStore :=
  { sampleLivestreamStore with livestream := .ok 9 }

/-- A store for a request of the statistics of alice whose reaction counts carry a row
for user 99, who is not among the fetched users. -/
def sampleStoreUnknownSubject : UserStatsStore :=
  { sampleUserStore with reactions := .ok [{ ID := 99, Count := 1 }] }

/-! # Properties -/

/-! ## Properties of `Less` and of the sort -/

theorem less_iff {ι : Type} [LinearOrder ι] (a b : RankingEntry ι) :
    Less a b = true ↔ a.Score < b.Score ∨ (a.Score = b.Score ∧ a.ID < b.ID) := by
  unfold Less
  by_cases h : a.Score = b.Score
  · simp [h]
  · simp [h]

theorem less_iff_keyLt {ι : Type} [LinearOrder ι] (a b : RankingEntry ι) :
    Less a b = true ↔ keyLt a b := by
  rw [less_iff, keyLt, Prod.Lex.lt_iff]

theorem keyLt_trans {ι : Type} [LinearOrder ι] {a b c : RankingEntry ι}
    (h₁ : keyLt a b) (h₂ : keyLt b c) : keyLt a c :=
  lt_trans (α := Lex (Int × ι)) h₁ h₂

theorem keyLt_asymm {ι : Type} [LinearOrder ι] {a b : RankingEntry ι}
    (h : keyLt a b) : ¬ keyLt b a :=
  lt_asymm (α := Lex (Int × ι)) h

theorem keyLt_irrefl {ι : Type} [LinearOrder ι] (a : RankingEntry ι) : ¬ keyLt a a :=
  lt_irrefl (α := Lex (Int × ι)) _

/-- Two entries neither of which is below the other are the same entry. -/
theorem eq_of_not_keyLt {ι : Type} [LinearOrder ι] {a b : RankingEntry ι}
    (h₁ : ¬ keyLt a b) (h₂ : ¬ keyLt b a) : a = b := by
  unfold keyLt at h₁ h₂
  have h := le_antisymm (α := Lex (Int × ι)) (not_lt.mp h₂) (not_lt.mp h₁)
  have h' : (a.Score, a.ID) = (b.Score, b.ID) := h
  cases a; cases b
  simp only [Prod.mk.injEq] at h'
  simp [h'.1, h'.2]

theorem isSorted_iff {ι : Type} [LinearOrder ι] (l : List (RankingEntry ι)) :
    IsSorted l ↔ l.Pairwise (fun a b => ¬ keyLt b a) := by
  unfold IsSorted
  constructor <;> intro h <;> refine h.imp ?_ <;> intro a b hab
  · rw [← less_iff_keyLt]; simp [hab]
  · rw [← less_iff_keyLt] at hab; simpa using hab

/-- Entries with different identifiers are comparable by the key. -/
theorem keyLt_or_of_ne {ι : Type} [LinearOrder ι] {a b : RankingEntry ι}
    (h : a.ID ≠ b.ID) : keyLt a b ∨ keyLt b a := by
  by_contra hc
  push_neg at hc
  exact h (congrArg RankingEntry.ID (eq_of_not_keyLt hc.1 hc.2))

theorem sortInsert_perm {ι : Type} [LinearOrder ι] (e : RankingEntry ι)
    (l : List (RankingEntry ι)) : (sortInsert e l).Perm (e :: l) := by
  induction l with
  | nil => simp [sortInsert]
  | cons x xs ih =>
    unfold sortInsert
    split
    · exact List.Perm.refl _
    · exact (List.Perm.cons x ih).trans (List.Perm.swap e x xs)

theorem sortSort_perm {ι : Type} [LinearOrder ι] (l : List (RankingEntry ι)) :
    (sortSort l).Perm l := by
  induction l with
  | nil => exact List.Perm.refl _
  | cons x xs ih =>
    have h : sortSort (x :: xs) = sortInsert x (sortSort xs) := rfl
    rw [h]
    exact (sortInsert_perm x _).trans (List.Perm.cons x ih)

theorem sortInsert_sorted {ι : Type} [LinearOrder ι] (e : RankingEntry ι)
    (l : List (RankingEntry ι)) (hl : IsSorted l) : IsSorted (sortInsert e l) := by
  induction l with
  | nil => simp [sortInsert, IsSorted]
  | cons x xs ih =>
    rw [isSorted_iff] at hl ⊢
    rw [List.pairwise_cons] at hl
    unfold sortInsert
    by_cases hlt : Less e x = true
    · rw [if_pos hlt]
      have hk : keyLt e x := (less_iff_keyLt e x).mp hlt
      refine List.pairwise_cons.mpr ⟨?_, List.pairwise_cons.mpr hl⟩
      intro b hb
      rcases List.mem_cons.mp hb with rfl | hb
      · exact keyLt_asymm hk
      · intro hbe
        exact hl.1 b hb (keyLt_trans hbe hk)
    · rw [if_neg hlt]
      have hk : ¬ keyLt e x := fun h => hlt ((less_iff_keyLt e x).mpr h)
      refine List.pairwise_cons.mpr
        ⟨?_, (isSorted_iff _).mp (ih ((isSorted_iff _).mpr hl.2))⟩
      intro b hb
      rcases List.mem_cons.mp ((sortInsert_perm e xs).subset hb) with rfl | hb
      · exact hk
      · exact hl.1 b hb

theorem sortSort_sorted {ι : Type} [LinearOrder ι] (l : List (RankingEntry ι)) :
    IsSorted (sortSort l) := by
  induction l with
  | nil => simp [sortSort, IsSorted]
  | cons x xs ih => exact sortInsert_sorted x _ ih

/-- Uniqueness of the sorted order: whatever algorithm `sort.Sort` runs, a
rearrangement of the slice in which no element is `Less` than an earlier one is the
list `sortSort` computes. -/
theorem sortSort_eq_of_perm_of_sorted {ι : Type} [LinearOrder ι]
    (l s : List (RankingEntry ι)) (hp : s.Perm l) (hs : IsSorted s) : s = sortSort l :=
  @List.eq_of_perm_of_sorted _ (fun a b => ¬ keyLt b a)
    ⟨fun _ _ h₁ h₂ => eq_of_not_keyLt h₂ h₁⟩ _ _
    (hp.trans (sortSort_perm l).symm) ((isSorted_iff s).mp hs)
    ((isSorted_iff _).mp (sortSort_sorted l))

/-- The sorted slice does not depend on the order in which the entries were appended. -/
theorem sortSort_congr {ι : Type} [LinearOrder ι] {l₁ l₂ : List (RankingEntry ι)}
    (h : l₁.Perm l₂) : sortSort l₁ = sortSort l₂ :=
  sortSort_eq_of_perm_of_sorted l₂ (sortSort l₁) ((sortSort_perm l₁).trans h)
    (sortSort_sorted l₁)

/-! ## Properties of the scan -/

theorem scanFrom_eq {ι : Type} [DecidableEq ι] (target : ι) (l : List (RankingEntry ι))
    (rank : Nat) :
    scanFrom target l rank = rank + List.indexOf target (l.map (·.ID)) := by
  induction l generalizing rank with
  | nil => simp [scanFrom]
  | cons e rest ih =>
    by_cases h : e.ID = target
    · simp [scanFrom, h, List.indexOf_cons]
    · simp [scanFrom, h, List.indexOf_cons, ih]
      omega

/-- The scan counts the entries behind the last entry of the target. -/
theorem rankScan_eq {ι : Type} [DecidableEq ι] (ranking : List (RankingEntry ι)) (target : ι) :
    rankScan ranking target = 1 + List.indexOf target (ranking.map (·.ID)).reverse := by
  rw [rankScan, scanFrom_eq, List.map_reverse]

/-- On a slice `front ++ e :: back` whose back part does not mention the identifier of
`e`, the scan stops at `e` after `back.length` steps. -/
theorem rankScan_append_cons {ι : Type} [DecidableEq ι] (front back : List (RankingEntry ι))
    (e : RankingEntry ι) (h : e.ID ∉ back.map (·.ID)) :
    rankScan (front ++ e :: back) e.ID = 1 + back.length := by
  rw [rankScan_eq]
  have h' : e.ID ∉ (back.map (·.ID)).reverse := by simpa using h
  simp only [List.map_append, List.map_cons, List.reverse_append, List.reverse_cons,
    List.append_assoc]
  rw [List.indexOf_append_of_not_mem h']
  simp [List.indexOf_cons]

theorem countP_lt_countP {α : Type} (p q : α → Bool) (l : List α)
    (hpq : ∀ x ∈ l, p x = true → q x = true) (x : α) (hx : x ∈ l)
    (hqx : q x = true) (hpx : p x = false) : l.countP p < l.countP q := by
  induction l with
  | nil => cases hx
  | cons y ys ih =>
    have hmono : ys.countP p ≤ ys.countP q :=
      List.countP_mono_left (fun z hz => hpq z (List.mem_cons_of_mem _ hz))
    rcases List.mem_cons.mp hx with rfl | hx'
    · rw [List.countP_cons_of_pos _ _ hqx, List.countP_cons_of_neg _ _ (by simp [hpx])]
      omega
    · have hlt := ih (fun z hz => hpq z (List.mem_cons_of_mem _ hz)) hx'
      by_cases hpy : p y = true
      · rw [List.countP_cons_of_pos _ _ hpy,
          List.countP_cons_of_pos _ _ (hpq y (List.mem_cons_self _ _) hpy)]
        omega
      · rw [List.countP_cons_of_neg _ _ hpy]
        by_cases hqy : q y = true
        · rw [List.countP_cons_of_pos _ _ hqy]; omega
        · rw [List.countP_cons_of_neg _ _ hqy]; exact hlt

/-- With pairwise distinct identifiers the rank is one more than the number of entries
whose key is greater than the key of the target. -/
theorem computeRank_eq_countP {ι : Type} [LinearOrder ι] (entries : List (RankingEntry ι))
    (hd : (entries.map (·.ID)).Nodup) (t : RankingEntry ι) (ht : t ∈ entries) :
    computeRank entries t.ID = 1 + entries.countP (fun e => decide (keyLt t e)) := by
  have hperm := sortSort_perm entries
  have hsorted := sortSort_sorted entries
  have hnd : ((sortSort entries).map (·.ID)).Nodup := (hperm.map _).nodup_iff.mpr hd
  rw [← hperm.countP_eq, computeRank]
  obtain ⟨front, back, hsplit⟩ := List.append_of_mem (hperm.symm.subset ht)
  rw [hsplit] at hnd hsorted ⊢
  rw [List.map_append, List.map_cons] at hnd
  have hnd₂ := (List.nodup_append.mp hnd).2
  have hback : t.ID ∉ back.map (·.ID) := (List.nodup_cons.mp hnd₂.1).1
  have hfront : ∀ a ∈ front, a.ID ≠ t.ID := by
    intro a ha heq
    exact hnd₂.2 (List.mem_map_of_mem (·.ID) ha) (heq ▸ List.mem_cons_self _ _)
  rw [rankScan_append_cons front back t hback]
  rw [isSorted_iff] at hsorted
  rw [List.pairwise_append] at hsorted
  have h₁ : front.countP (fun e => decide (keyLt t e)) = 0 := by
    rw [List.countP_eq_zero]
    intro a ha
    simpa using hsorted.2.2 a ha t (List.mem_cons_self _ _)
  have h₂ : back.countP (fun e => decide (keyLt t e)) = back.length := by
    rw [List.countP_eq_length]
    intro b hb
    have hne : t.ID ≠ b.ID := fun heq => hback (heq ▸ List.mem_map_of_mem (·.ID) hb)
    rcases keyLt_or_of_ne hne with h | h
    · simpa using h
    · exact absurd h ((List.pairwise_cons.mp hsorted.2.1).1 b hb)
  rw [List.countP_append, List.countP_cons_of_neg _ _ (by simpa using keyLt_irrefl t), h₁, h₂]
  omega

/-- A greater key gives a numerically smaller rank. -/
theorem computeRank_lt_of_keyLt {ι : Type} [LinearOrder ι] (entries : List (RankingEntry ι))
    (hd : (entries.map (·.ID)).Nodup) (a b : RankingEntry ι) (ha : a ∈ entries)
    (hb : b ∈ entries) (hab : keyLt a b) :
    computeRank entries b.ID < computeRank entries a.ID := by
  rw [computeRank_eq_countP entries hd a ha, computeRank_eq_countP entries hd b hb]
  have := countP_lt_countP (fun e => decide (keyLt b e)) (fun e => decide (keyLt a e)) entries
    (fun x _ hx => by simpa using keyLt_trans hab (by simpa using hx)) b hb
    (by simpa using hab) (by simpa using keyLt_irrefl b)
  omega

/-! ## Maps and the ranking slice -/

theorem userStatisticsBody_tx (ord : RangeOrder (Int × UserAgg))
    (db : UserStatsStore) (username : String) :
    (userStatisticsBody ord db username).tx = .open := by
  unfold userStatisticsBody
  dsimp only
  repeat' split
  all_goals rfl

theorem livestreamStatisticsBody_tx (ord : RangeOrder (Int × LivestreamAgg))
    (db : LivestreamStatsStore) (livestreamID : Int) :
    ((∃ body, (livestreamStatisticsBody ord db livestreamID).response = .json 200 body) ∧
        (livestreamStatisticsBody ord db livestreamID).tx = .committed) ∨
      ((∀ code body, (livestreamStatisticsBody ord db livestreamID).response ≠ .json code body) ∧
        (livestreamStatisticsBody ord db livestreamID).tx.Rollback = .rolledBack) := by
  generalize hb : livestreamStatisticsBody ord db livestreamID = b
  unfold livestreamStatisticsBody at hb
  dsimp only at hb
  repeat' split at hb
  all_goals
    subst hb
    simp [TxState.Commit, TxState.Rollback]

/-! ## The ranking engine -/

/-- C1. For a scope whose subjects have pairwise distinct identifiers (any number of
them, any scores, ties included), sorting the entries and running the rank scan once
per subject is a bijection from the identifiers of the scope onto `{1, ..., N}`: every
rank lies in `[1, N]`, no two subjects receive the same rank, and every value of
`[1, N]` is the rank of a subject. -/
theorem rank_bijOn_scope {ι : Type} [LinearOrder ι] (entries : List (RankingEntry ι))
    (hd : (entries.map (·.ID)).Nodup) :
    Set.BijOn (computeRank entries) {t | t ∈ entries.map (·.ID)}
      (Set.Icc 1 entries.length) := by
  have hperm := sortSort_perm entries
  have hmem : ∀ t, t ∈ ((sortSort entries).map (·.ID)).reverse ↔ t ∈ entries.map (·.ID) :=
    fun t => by rw [List.mem_reverse]; exact (hperm.map _).mem_iff
  have hnd : (((sortSort entries).map (·.ID)).reverse).Nodup :=
    List.nodup_reverse.mpr ((hperm.map _).nodup_iff.mpr hd)
  have hlen : (((sortSort entries).map (·.ID)).reverse).length = entries.length := by
    rw [List.length_reverse, List.length_map, hperm.length_eq]
  have hrank : ∀ t, computeRank entries t
      = 1 + List.indexOf t ((sortSort entries).map (·.ID)).reverse :=
    fun t => rankScan_eq _ t
  refine ⟨?_, ?_, ?_⟩
  · intro t ht
    have hlt := List.indexOf_lt_length.mpr ((hmem t).mpr ht)
    rw [hlen] at hlt
    rw [Set.mem_Icc, hrank]
    omega
  · intro t ht u hu htu
    rw [hrank, hrank] at htu
    exact (List.indexOf_inj ((hmem t).mpr ht) ((hmem u).mpr hu)).mp (by omega)
  · intro k hk
    rw [Set.mem_Icc] at hk
    have hlt : k - 1 < (((sortSort entries).map (·.ID)).reverse).length := by
      rw [hlen]; omega
    refine ⟨(((sortSort entries).map (·.ID)).reverse).get ⟨k - 1, hlt⟩, ?_, ?_⟩
    · exact (hmem _).mp (List.get_mem _ _ _)
    · rw [hrank, List.get_indexOf hnd ⟨k - 1, hlt⟩]
      show 1 + (k - 1) = k
      omega

/-- An instance of C1: three users, two of them tied. -/
theorem rank_bijOn_scope_witness :
    (([⟨"bob", 200⟩, ⟨"alice", 200⟩, ⟨"carol", 5⟩] : List UserRankingEntry).map
        (·.ID)).Nodup ∧
      Set.BijOn
        (computeRank ([⟨"bob", 200⟩, ⟨"alice", 200⟩, ⟨"carol", 5⟩] : List UserRankingEntry))
        {t | t ∈ ([⟨"bob", 200⟩, ⟨"alice", 200⟩, ⟨"carol", 5⟩] : List UserRankingEntry).map
          (·.ID)}
        (Set.Icc 1 ([⟨"bob", 200⟩, ⟨"alice", 200⟩, ⟨"carol", 5⟩] :
          List UserRankingEntry).length) :=
  ⟨by decide, rank_bijOn_scope _ (by decide)⟩

/-- C2. For a scope with pairwise distinct identifiers and a target `t` of the scope,
the rank computed by `sort.Sort` and the backward scan is one more than the number of
subjects whose key `(score, identifier)` is lexicographically greater than the key of
`t`.  Hence a subject of maximal key has rank 1, and of two subjects with equal score
the one with the greater identifier has the numerically smaller rank. -/
theorem rank_eq_succ_count_greater {ι : Type} [LinearOrder ι]
    (entries : List (RankingEntry ι)) (hd : (entries.map (·.ID)).Nodup)
    (t : RankingEntry ι) (ht : t ∈ entries) :
    computeRank entries t.ID = 1 + entries.countP (fun e => decide (keyLt t e))
      ∧ ((∀ e ∈ entries, ¬ keyLt t e) → computeRank entries t.ID = 1)
      ∧ (∀ u ∈ entries, u.Score = t.Score → t.ID < u.ID →
          computeRank entries u.ID < computeRank entries t.ID) := by
  refine ⟨computeRank_eq_countP entries hd t ht, ?_, ?_⟩
  · intro hmax
    rw [computeRank_eq_countP entries hd t ht, List.countP_eq_zero.mpr]
    intro e he
    simpa using hmax e he
  · intro u hu hscore hid
    apply computeRank_lt_of_keyLt entries hd t u ht hu
    rw [keyLt, Prod.Lex.lt_iff]
    exact Or.inr ⟨hscore.symm, hid⟩

/-- An instance of C2: livestreams 3 and 7 are tied at 200, livestream 5 has 9. -/
theorem rank_eq_succ_count_greater_witness :
    (([⟨3, 200⟩, ⟨5, 9⟩, ⟨7, 200⟩] : List LivestreamRankingEntry).map (·.ID)).Nodup ∧
      (⟨3, 200⟩ : LivestreamRankingEntry) ∈
        ([⟨3, 200⟩, ⟨5, 9⟩, ⟨7, 200⟩] : List LivestreamRankingEntry) ∧
      computeRank ([⟨3, 200⟩, ⟨5, 9⟩, ⟨7, 200⟩] : List LivestreamRankingEntry) 3 = 2 :=
  ⟨by decide, by decide,
    (rank_eq_succ_count_greater [⟨3, 200⟩, ⟨5, 9⟩, ⟨7, 200⟩] (by decide) ⟨3, 200⟩
      (by decide)).1.trans (by decide)⟩

/-- C3. In a user scope with unique usernames that contains the users `a` and `b`,
the name of `a` being lexicographically smaller than the name of `b`, the rank
computed for `a` is numerically smaller than the rank computed for `b` exactly when
the score of `a` is strictly greater than the score of `b`. -/
theorem rank_above_iff_score_greater (users : List UserRankingEntry)
    (hd : (users.map (·.ID)).Nodup) (a b : UserRankingEntry) (ha : a ∈ users)
    (hb : b ∈ users) (hab : a.ID < b.ID) :
    computeRank users a.ID < computeRank users b.ID ↔ b.Score < a.Score := by
  constructor
  · intro hrank
    by_contra hscore
    have hkey : keyLt a b := by
      rw [keyLt, Prod.Lex.lt_iff]
      rcases lt_or_eq_of_le (not_lt.mp hscore) with h | h
      · exact Or.inl h
      · exact Or.inr ⟨h, hab⟩
    have := computeRank_lt_of_keyLt users hd a b ha hb hkey
    omega
  · intro hscore
    apply computeRank_lt_of_keyLt users hd b a hb ha
    rw [keyLt, Prod.Lex.lt_iff]
    exact Or.inl hscore

/-- An instance of C3: alice with 5 reactions and tips of 300 against bob at 200. -/
theorem rank_above_iff_score_greater_witness :
    (([⟨"bob", 200⟩, ⟨"alice", 305⟩] : List UserRankingEntry).map (·.ID)).Nodup ∧
      "alice" < "bob" ∧
      (computeRank ([⟨"bob", 200⟩, ⟨"alice", 305⟩] : List UserRankingEntry) "alice"
          < computeRank ([⟨"bob", 200⟩, ⟨"alice", 305⟩] : List UserRankingEntry) "bob"
        ↔ (200 : Int) < 305) :=
  ⟨by decide, String.lt_iff_toList_lt.mpr (by decide),
    rank_above_iff_score_greater [⟨"bob", 200⟩, ⟨"alice", 305⟩] (by decide)
      ⟨"alice", 305⟩ ⟨"bob", 200⟩ (by decide) (by decide)
      (String.lt_iff_toList_lt.mpr (by decide))⟩

/-! ## Building the ranking slice -/

/-- C5. The request for the statistics of alice, an existing user who owns no
livestream, on a store whose calls up to the query for her livestream ids succeed:
`sqlx.In` rejects the empty slice of livestream ids, and the handler answers with
status 500 instead of a record of zeros, whatever the later calls would return and
whatever the iteration order of the map. -/
theorem user_without_livestreams_gets_500 (ord : RangeOrder (Int × UserAgg))
    (livecomments : DbResult (Int × Int)) (viewersCount : DbResult Int)
    (favoriteEmoji : DbResult String) :
    (getUserStatisticsHandler ord
        (storeWithoutLivestreams livecomments viewersCount favoriteEmoji) "alice").response
      = .httpError 500 "failed to create livecomments query: " := by
  rfl

/-! ## The transaction -/

theorem getUserStatisticsHandler_tx (ord : RangeOrder (Int × UserAgg)) (db : UserStatsStore)
    (username : String) :
    (getUserStatisticsHandler ord db username).tx = none ∨
      (getUserStatisticsHandler ord db username).tx = some .rolledBack := by
  generalize hr : getUserStatisticsHandler ord db username = r
  unfold getUserStatisticsHandler at hr
  repeat' split at hr
  all_goals subst hr
  · exact Or.inl rfl
  · exact Or.inl rfl
  · right
    simp [deferRollback, userStatisticsBody_tx, TxState.Rollback]

/-- The livestream statistics handler, the sibling of the user statistics handler, ends
a begun transaction committed when it returns the record and rolled back otherwise. -/
theorem getLivestreamStatisticsHandler_tx (ord : RangeOrder (Int × LivestreamAgg))
    (db : LivestreamStatsStore) (livestreamIDParam : String) :
    (getLivestreamStatisticsHandler ord db livestreamIDParam).tx = none ∨
      ((∃ body, (getLivestreamStatisticsHandler ord db livestreamIDParam).response
          = .json 200 body) ∧
        (getLivestreamStatisticsHandler ord db livestreamIDParam).tx = some .committed) ∨
      ((∀ code body, (getLivestreamStatisticsHandler ord db livestreamIDParam).response
          ≠ .json code body) ∧
        (getLivestreamStatisticsHandler ord db livestreamIDParam).tx = some .rolledBack) := by
  generalize hr : getLivestreamStatisticsHandler ord db livestreamIDParam = r
  unfold getLivestreamStatisticsHandler at hr
  repeat' split at hr
  all_goals subst hr
  · exact Or.inl rfl
  · exact Or.inl rfl
  · exact Or.inl rfl
  · right
    rename_i livestreamID _ _ _ _
    rcases livestreamStatisticsBody_tx ord db livestreamID with ⟨h₁, h₂⟩ | ⟨h₁, h₂⟩
    · left
      exact ⟨h₁, by simp [deferRollback, h₂, TxState.Rollback]⟩
    · right
      exact ⟨h₁, by simp [deferRollback, h₂]⟩

/-- C6. The request for the statistics of alice, who owns two livestreams, on a store
whose every call succeeds: the handler answers with the 200 record, never calls
`Commit`, and the transaction ends rolled back by the deferred `Rollback`.  On no run
whatsoever does the user statistics handler end with a committed transaction, and on
no run does it leave the transaction open. -/
theorem user_statistics_never_commits :
    (∀ ord : RangeOrder (Int × UserAgg),
      (∃ stats, (getUserStatisticsHandler ord sampleUserStore "alice").response
          = .json 200 stats) ∧
        (getUserStatisticsHandler ord sampleUserStore "alice").tx = some .rolledBack)
    ∧ (∀ (ord : RangeOrder (Int × UserAgg)) (db : UserStatsStore) (username : String),
        (getUserStatisticsHandler ord db username).tx ≠ some .committed ∧
        (getUserStatisticsHandler ord db username).tx ≠ some .open) := by
  refine ⟨fun ord => ⟨⟨_, rfl⟩, rfl⟩, ?_⟩
  intro ord db username
  rcases getUserStatisticsHandler_tx ord db username with h | h <;> rw [h] <;> simp

theorem digitChar_isDigit (m : Nat) (h : m < 10) :
    (Nat.digitChar m).isDigit = true ∧ (Nat.digitChar m).toNat - 48 = m := by
  interval_cases m <;> decide

theorem parseDigits_toDigitsCore (fuel : Nat) :
    ∀ n, n < fuel → ∃ k, ∀ ds acc,
      parseDigits (Nat.toDigitsCore 10 fuel n ds) acc = parseDigits ds (acc * 10 ^ k + n) := by
  induction fuel with
  | zero => intro n h; omega
  | succ fuel ih =>
    intro n hn
    have hd := digitChar_isDigit (n % 10) (Nat.mod_lt _ (by norm_num))
    by_cases h0 : n / 10 = 0
    · refine ⟨1, fun ds acc => ?_⟩
      have hlt : n % 10 = n := Nat.mod_eq_of_lt (by omega)
      simp only [Nat.toDigitsCore, h0, if_true, parseDigits, hd.1, hd.2, ↓reduceIte]
      congr 1
      omega
    · obtain ⟨k, hk⟩ := ih (n / 10) (by omega)
      refine ⟨k + 1, fun ds acc => ?_⟩
      simp only [Nat.toDigitsCore, h0, if_false, hk, parseDigits, hd.1, hd.2, ↓reduceIte]
      congr 1
      rw [pow_succ]
      have := Nat.div_add_mod n 10
      nlinarith [Nat.div_add_mod n 10]

theorem parseDigits_toDigits (n : Nat) : parseDigits (Nat.toDigits 10 n) 0 = some n := by
  obtain ⟨k, hk⟩ := parseDigits_toDigitsCore (n + 1) n (by omega)
  rw [Nat.toDigits, hk]
  simp [parseDigits]

theorem parseDigits_head {c : Char} {cs : List Char} {acc n : Nat}
    (h : parseDigits (c :: cs) acc = some n) : c.isDigit = true := by
  by_contra hc
  simp [parseDigits, hc] at h

theorem atoiChars_of_isDigit (c : Char) (cs : List Char) (hc : c.isDigit = true) :
    atoiChars (c :: cs) =
      match parseDigits (c :: cs) 0 with
      | some n => if n < 2 ^ 63 then some (n : Int) else none
      | none => none := by
  have h₁ : c ≠ '-' := by rintro rfl; exact absurd hc (by decide)
  have h₂ : c ≠ '+' := by rintro rfl; exact absurd hc (by decide)
  unfold atoiChars
  split
  · simp_all
  · simp_all
  · simp_all
  · rfl

theorem Atoi_toString (n : Int) (h₁ : -2 ^ 63 ≤ n) (h₂ : n < 2 ^ 63) :
    Atoi (toString n) = some n := by
  cases n with
  | ofNat m =>
    have hdata : (toString (Int.ofNat m)).data = Nat.toDigits 10 m := rfl
    have hp := parseDigits_toDigits m
    have hm : m < 2 ^ 63 := by
      have : ((m : Nat) : Int) < 2 ^ 63 := h₂
      exact_mod_cast this
    unfold Atoi
    rw [hdata]
    cases hl : Nat.toDigits 10 m with
    | nil =>
      rw [hl] at hp
      simp only [parseDigits, Option.some.injEq] at hp
      subst hp
      exact absurd hl (by decide)
    | cons c cs =>
      rw [hl] at hp
      rw [atoiChars_of_isDigit c cs (parseDigits_head hp), hp]
      simp only [hm, if_true]
      rfl
  | negSucc m =>
    have hdata : (toString (Int.negSucc m)).data = '-' :: Nat.toDigits 10 (m + 1) := rfl
    have hp := parseDigits_toDigits (m + 1)
    have hm : m + 1 ≤ 2 ^ 63 := by
      have h : -(2 ^ 63 : Int) ≤ -((m : Int) + 1) := by
        rw [← Int.negSucc_eq]; exact h₁
      have : ((m + 1 : Nat) : Int) ≤ 2 ^ 63 := by push_cast; linarith
      exact_mod_cast this
    unfold Atoi
    rw [hdata]
    cases hl : Nat.toDigits 10 (m + 1) with
    | nil =>
      rw [hl] at hp
      simp [parseDigits] at hp
    | cons c cs =>
      rw [hl] at hp
      simp only [atoiChars, hp, hm, if_true]
      rw [Int.negSucc_eq]
      push_cast
      rfl
theorem parseDigits_eq_none (l : List Char) (acc : Nat) (c : Char) (hc : c ∈ l)
    (hd : c.isDigit = false) : parseDigits l acc = none := by
  induction l generalizing acc with
  | nil => cases hc
  | cons x xs ih =>
    unfold parseDigits
    rcases List.mem_cons.mp hc with rfl | hx
    · simp [hd]
    · split
      · exact ih _ hx
      · rfl

/-- A text with a character that is neither a decimal digit nor a sign is rejected. -/
theorem Atoi_eq_none_of_mem (s : String) (c : Char) (hc : c ∈ s.data)
    (hd : c.isDigit = false) (hm : c ≠ '-') (hp : c ≠ '+') : Atoi s = none := by
  unfold Atoi
  generalize s.data = l at hc
  unfold atoiChars
  split
  · rfl
  · rename_i ds
    have hds : c ∈ ds := by
      rcases List.mem_cons.mp hc with h | h
      · exact absurd h hm
      · exact h
    simp [parseDigits_eq_none ds 0 c hds hd]
  · rename_i ds
    have hds : c ∈ ds := by
      rcases List.mem_cons.mp hc with h | h
      · exact absurd h hp
      · exact h
    simp [parseDigits_eq_none ds 0 c hds hd]
  · simp [parseDigits_eq_none l 0 c hc hd]

/-! ## The reactions listing -/

/-- The reactions listing answers a failed select with status 404, for every request
that gets as far as the select. -/
theorem getReactionsHandler_select_error {ρ : Type} (db : ReactionsStore ρ)
    (livestreamIDParam limitParam query : String) (livestreamID : Int) (e : DbError)
    (hs : db.verifyUserSession = none) (hid : Atoi livestreamIDParam = some livestreamID)
    (hb : db.BeginTxx = .ok ()) (hq : reactionsQuery limitParam = some query)
    (hsel : db.selectReactions query livestreamID = .error e) :
    (getReactionsHandler db livestreamIDParam limitParam).response
      = .httpError 404 "failed to get reactions" := by
  simp [getReactionsHandler, hs, hid, hb, hq, hsel]

/-- C8. An authenticated request for the reactions of livestream 42 with limit 5, on a
store whose select of the reactions fails, whatever the error and whatever the later
calls would do: the handler answers with status 404 (`http.StatusNotFound`), not with
status 500. -/
theorem reactions_select_failure_gets_404 (ρ : Type) (e : DbError)
    (fillReactionsResponse : List ReactionModel → Except Unit (List ρ))
    (commit : DbResult Unit) :
    (getReactionsHandler (storeFailingSelect ρ e fillReactionsResponse commit) "42"
        "5").response
      = .httpError 404 "failed to get reactions" := by
  rfl

/-- C9, as stated, fails: the limit `-1` is not empty and is not the decimal form of a
non-negative integer, yet the handler does not answer 400; it issues the reactions
query with ` LIMIT -1` appended and, on a store that answers it, returns the 200
response. -/
theorem negative_limit_query_issued :
    "-1" ≠ "" ∧
      (getReactionsHandler sampleReactionsStore "42" "-1").query
        = some "SELECT * FROM reactions WHERE livestream_id = ? ORDER BY created_at DESC LIMIT -1" ∧
      (getReactionsHandler sampleReactionsStore "42" "-1").response = .json 200 [] := by
  decide

/-- C9, amended.  On an authenticated request with an integer livestream id and a
transaction begun: a non-empty limit that `strconv.Atoi` rejects, in particular any
text with a character that is neither a decimal digit nor a sign, gives status 400 and
no reactions query; a limit that `strconv.Atoi` accepts with value `n`, in particular
the decimal form of any integer of the 64-bit range, negative ones included, gives the
base query with ` LIMIT n` appended; the empty limit gives the base query. -/
theorem reactions_limit_handling {ρ : Type} (db : ReactionsStore ρ)
    (livestreamIDParam limitParam : String) (livestreamID : Int)
    (hs : db.verifyUserSession = none) (hid : Atoi livestreamIDParam = some livestreamID)
    (hb : db.BeginTxx = .ok ()) :
    (limitParam ≠ "" → Atoi limitParam = none →
        (getReactionsHandler db livestreamIDParam limitParam).response
            = .httpError 400 "limit query parameter must be integer" ∧
          (getReactionsHandler db livestreamIDParam limitParam).query = none)
    ∧ (∀ c ∈ limitParam.data, c.isDigit = false → c ≠ '-' → c ≠ '+' →
        (getReactionsHandler db livestreamIDParam limitParam).response
            = .httpError 400 "limit query parameter must be integer" ∧
          (getReactionsHandler db livestreamIDParam limitParam).query = none)
    ∧ (∀ n, Atoi limitParam = some n →
        (getReactionsHandler db livestreamIDParam limitParam).query
          = some (reactionsBaseQuery ++ (" LIMIT " ++ toString n)))
    ∧ (∀ n : Int, -2 ^ 63 ≤ n → n < 2 ^ 63 → limitParam = toString n →
        (getReactionsHandler db livestreamIDParam limitParam).query
          = some (reactionsBaseQuery ++ (" LIMIT " ++ toString n)))
    ∧ (limitParam = "" →
        (getReactionsHandler db livestreamIDParam limitParam).query
          = some reactionsBaseQuery) := by
  have hempty : Atoi "" = none := rfl
  have hnone : limitParam ≠ "" → Atoi limitParam = none →
      (getReactionsHandler db livestreamIDParam limitParam).response
          = .httpError 400 "limit query parameter must be integer" ∧
        (getReactionsHandler db livestreamIDParam limitParam).query = none := by
    intro hne hat
    simp [getReactionsHandler, hs, hid, hb, reactionsQuery, hne, hat]
  have hsome : ∀ n, Atoi limitParam = some n →
      (getReactionsHandler db livestreamIDParam limitParam).query
        = some (reactionsBaseQuery ++ (" LIMIT " ++ toString n)) := by
    intro n hat
    have hne : limitParam ≠ "" := by
      rintro rfl
      rw [hempty] at hat
      cases hat
    have hq : reactionsQuery limitParam
        = some (reactionsBaseQuery ++ (" LIMIT " ++ toString n)) := by
      simp [reactionsQuery, hne, hat]
    unfold getReactionsHandler
    simp only [hs, hid, hb, hq]
    repeat' split
    all_goals rfl
  refine ⟨hnone, ?_, hsome, ?_, ?_⟩
  · intro c hc hd hm hp
    refine hnone ?_ (Atoi_eq_none_of_mem limitParam c hc hd hm hp)
    rintro rfl
    cases hc
  · intro n h₁ h₂ hlim
    exact hsome n (hlim ▸ Atoi_toString n h₁ h₂)
  · intro hlim
    have hq : reactionsQuery limitParam = some reactionsBaseQuery := by
      simp [reactionsQuery, hlim]
    unfold getReactionsHandler
    simp only [hs, hid, hb, hq]
    repeat' split
    all_goals rfl

/-- An instance of C9, amended: the limit `abc` gives status 400 and no query. -/
theorem reactions_limit_handling_witness :
    (getReactionsHandler sampleReactionsStore "42" "abc").response
        = .httpError 400 "limit query parameter must be integer" ∧
      (getReactionsHandler sampleReactionsStore "42" "abc").query = none :=
  (reactions_limit_handling sampleReactionsStore "42" "abc" 42 rfl rfl rfl).1
    (by decide) (by decide)

/-! ## The favorite emoji -/

theorem orderedBefore_iff (a b : String × Nat) :
    orderedBefore a b = true ↔ b.2 < a.2 ∨ (a.2 = b.2 ∧ b.1 < a.1) := by
  simp [orderedBefore]

theorem orderedBefore_irrefl (a : String × Nat) : orderedBefore a a = false := by
  rw [← Bool.not_eq_true, orderedBefore_iff]
  simp

theorem orderedBefore_trans {a b c : String × Nat} (h₁ : orderedBefore a b = true)
    (h₂ : orderedBefore b c = true) : orderedBefore a c = true := by
  rw [orderedBefore_iff] at h₁ h₂ ⊢
  rcases h₁ with h₁ | ⟨h₁, h₁'⟩ <;> rcases h₂ with h₂ | ⟨h₂, h₂'⟩
  · exact Or.inl (by omega)
  · exact Or.inl (by omega)
  · exact Or.inl (by omega)
  · exact Or.inr ⟨by omega, lt_trans h₂' h₁'⟩

/-- The row kept by `LIMIT 1` is a row of the result before which no row is placed. -/
theorem firstRow_spec (rows : List (String × Nat)) (hne : rows ≠ []) :
    ∃ b, firstRow rows = some b ∧ b ∈ rows ∧ ∀ r ∈ rows, orderedBefore r b = false := by
  induction rows with
  | nil => exact absurd rfl hne
  | cons r rows ih =>
    by_cases hrows : rows = []
    · subst hrows
      exact ⟨r, rfl, List.mem_cons_self _ _, fun x hx => by
        rw [List.mem_singleton.mp hx]; exact orderedBefore_irrefl r⟩
    · obtain ⟨b, hb, hmem, hmin⟩ := ih hrows
      by_cases hrb : orderedBefore r b = true
      · refine ⟨r, by simp [firstRow, hb, hrb], List.mem_cons_self _ _, ?_⟩
        intro x hx
        rcases List.mem_cons.mp hx with rfl | hx
        · exact orderedBefore_irrefl x
        · by_contra hxr
          have := orderedBefore_trans (Bool.not_eq_false _ ▸ hxr) hrb
          rw [hmin x hx] at this
          cases this
      · refine ⟨b, by simp [firstRow, hb, hrb], List.mem_cons_of_mem _ hmem, ?_⟩
        intro x hx
        rcases List.mem_cons.mp hx with rfl | hx
        · simpa using hrb
        · exact hmin x hx

/-- The favorite emoji of a non-empty list of names: a name of maximal count, the
greatest one among the names of maximal count. -/
theorem favoriteEmojiQuery_spec (emojiNames : List String) (hne : emojiNames ≠ []) :
    ∃ e, favoriteEmojiQuery emojiNames = some e ∧ e ∈ emojiNames ∧
      (∀ x ∈ emojiNames, emojiNames.count x ≤ emojiNames.count e) ∧
      (∀ x ∈ emojiNames, emojiNames.count x = emojiNames.count e → x ≤ e) := by
  have hrows : groupByEmojiName emojiNames ≠ [] := by
    obtain ⟨x, hx⟩ := List.exists_mem_of_ne_nil _ hne
    intro h
    have hmem : (x, emojiNames.count x) ∈ groupByEmojiName emojiNames :=
      List.mem_map.mpr ⟨x, List.mem_dedup.mpr hx, rfl⟩
    rw [h] at hmem
    cases hmem
  obtain ⟨b, hb, hmem, hmin⟩ := firstRow_spec _ hrows
  obtain ⟨e, he, rfl⟩ := List.mem_map.mp hmem
  have hrow : ∀ x ∈ emojiNames,
      ¬ (emojiNames.count e < emojiNames.count x ∨
        (emojiNames.count x = emojiNames.count e ∧ e < x)) := by
    intro x hx hlt
    have := hmin (x, emojiNames.count x) (List.mem_map.mpr ⟨x, List.mem_dedup.mpr hx, rfl⟩)
    rw [← Bool.not_eq_true, orderedBefore_iff] at this
    exact this hlt
  refine ⟨e, by simp [favoriteEmojiQuery, hb], List.mem_dedup.mp he, ?_, ?_⟩
  · intro x hx
    exact not_lt.mp fun h => hrow x hx (Or.inl h)
  · intro x hx hcount
    exact not_lt.mp fun h => hrow x hx (Or.inr ⟨hcount, h⟩)

/-- After a favorite emoji query without a row, the body returns no error: it ends
with the record, whose favorite emoji is the empty string, unless the nil pointer of a
missing user is dereferenced. -/
theorem userStatisticsBody_favorite_default (ord : RangeOrder (Int × UserAgg))
    (db : UserStatsStore) (username : String)
    (hcall : (StoreCall.getFavoriteEmoji, some DbError.ErrNoRows) ∈
      (userStatisticsBody ord db username).calls) :
    (∀ code msg, (userStatisticsBody ord db username).response ≠ .httpError code msg) ∧
      (∀ code stats, (userStatisticsBody ord db username).response = .json code stats →
        code = 200 ∧ stats.FavoriteEmoji = "") := by
  generalize hb : userStatisticsBody ord db username = b at hcall ⊢
  unfold userStatisticsBody at hb
  dsimp only at hb
  repeat' split at hb
  all_goals
    subst hb
    simp only [List.mem_cons, List.mem_append, List.mem_singleton, List.not_mem_nil,
      Prod.mk.injEq, reduceCtorEq, false_and, and_false, or_false, false_or, true_and,
      List.cons_append, List.nil_append] at hcall
  · have hfav : db.favoriteEmoji = .error .ErrNoRows := by
      rcases hf : db.favoriteEmoji with e | v
      · rw [hf] at hcall
        simp only [DbResult.status, Option.some.injEq] at hcall
        rw [hcall]
      · rw [hf] at hcall
        simp [DbResult.status] at hcall
    simp_all [DbResult.hardError]
  · simp
  · refine ⟨by simp, ?_⟩
    intro code stats h
    have hfav : db.favoriteEmoji = .error .ErrNoRows := by
      rcases hf : db.favoriteEmoji with e | v
      · rw [hf] at hcall
        simp only [DbResult.status, Option.some.injEq] at hcall
        rw [hcall]
      · rw [hf] at hcall
        simp [DbResult.status] at hcall
    simp only [Response.json.injEq] at h
    obtain ⟨hcode, hstats⟩ := h
    subst hstats
    exact ⟨hcode.symm, by simp [hfav, DbResult.dest]⟩

/-- The tie of the specification: two reactions with each of two emoji give the greater
one. -/
theorem favoriteEmojiQuery_tie : favoriteEmojiQuery ["😀", "😂", "😂", "😀"] = some "😂" := by
  obtain ⟨e, he, hmem, -, hgreat⟩ := favoriteEmojiQuery_spec ["😀", "😂", "😂", "😀"] (by decide)
  have hlt : "😀" < "😂" := String.lt_iff_toList_lt.mpr (by decide)
  have hcases : e = "😀" ∨ e = "😂" := by
    simp only [List.mem_cons, List.mem_singleton, List.not_mem_nil, or_false] at hmem
    tauto
  rcases hcases with rfl | rfl
  · exact absurd (hgreat "😂" (by decide) (by decide)) (not_le.mpr hlt)
  · exact he

/-- C10. The favorite emoji query on the empty list of emoji names has no row, and the
call reports `sql.ErrNoRows`.  For alice owning livestreams without reactions the
handler tolerates it and returns the 200 record with the empty string as
`favorite_emoji`.  For alice owning no livestream the list is empty as well, but the
handler returns status 500 at `sqlx.In` before the favorite emoji query is issued,
whatever the calls in between would return and whatever the iteration order of the
map: an error is returned and there is no `favorite_emoji`. -/
theorem favorite_emoji_unreached_without_livestreams (ord : RangeOrder (Int × UserAgg))
    (livecomments : DbResult (Int × Int)) (viewersCount : DbResult Int) :
    favoriteEmojiGet [] = .error .ErrNoRows
      ∧ (∃ stats,
          (getUserStatisticsHandler ord sampleStoreWithoutReactions "alice").response
            = .json 200 stats ∧ stats.FavoriteEmoji = "")
      ∧ (getUserStatisticsHandler ord
            (storeWithoutLivestreams livecomments viewersCount (favoriteEmojiGet []))
            "alice").response
          = .httpError 500 "failed to create livecomments query: "
      ∧ (getUserStatisticsHandler ord
            (storeWithoutLivestreams livecomments viewersCount (favoriteEmojiGet []))
            "alice").calls.map (·.1)
          = [.BeginTxx, .getUserID, .selectUsers, .selectReactionCounts, .selectTipSums,
              .selectLivestreamIDs] :=
  ⟨rfl, ⟨_, rfl, rfl⟩, rfl, rfl⟩

/-! ## Independence of the order of the appends -/

/-- The sorted user ranking does not depend on the order in which the map is visited. -/
theorem sortSort_userRanking (ord₁ ord₂ : RangeOrder (Int × UserAgg)) (m : GoMap UserAgg) :
    sortSort (userRanking ord₁ m) = sortSort (userRanking ord₂ m) :=
  sortSort_congr (((ord₁.perm m).trans (ord₂.perm m).symm).map _)

/-- The sorted livestream ranking does not depend on the order in which the map is
visited. -/
theorem sortSort_livestreamRanking (ord₁ ord₂ : RangeOrder (Int × LivestreamAgg))
    (m : GoMap LivestreamAgg) :
    sortSort (livestreamRanking ord₁ m) = sortSort (livestreamRanking ord₂ m) :=
  sortSort_congr (((ord₁.perm m).trans (ord₂.perm m).symm).map _)

theorem getUserStatisticsHandler_order (ord₁ ord₂ : RangeOrder (Int × UserAgg))
    (db : UserStatsStore) (username : String) :
    getUserStatisticsHandler ord₁ db username = getUserStatisticsHandler ord₂ db username := by
  unfold getUserStatisticsHandler userStatisticsBody
  simp only [sortSort_userRanking ord₁ ord₂]

theorem getLivestreamStatisticsHandler_order (ord₁ ord₂ : RangeOrder (Int × LivestreamAgg))
    (db : LivestreamStatsStore) (livestreamIDParam : String) :
    getLivestreamStatisticsHandler ord₁ db livestreamIDParam
      = getLivestreamStatisticsHandler ord₂ db livestreamIDParam := by
  unfold getLivestreamStatisticsHandler livestreamStatisticsBody
  simp only [sortSort_livestreamRanking ord₁ ord₂]

/-- C11. The computed rank depends on the collection of ranking entries only: if two
ranking slices hold the same entries appended in different orders, `sort.Sort` turns
them into the same slice and the backward scan yields the same rank for every target,
for livestream ids and usernames alike.  Hence the run of either statistics handler
on a store snapshot, response and rank included, is the same for any two orders in
which the map is visited. -/
theorem rank_independent_of_append_order {ι : Type} [LinearOrder ι]
    (ranking₁ ranking₂ : List (RankingEntry ι)) (target : ι)
    (h : ranking₁.Perm ranking₂) :
    sortSort ranking₁ = sortSort ranking₂
      ∧ computeRank ranking₁ target = computeRank ranking₂ target
      ∧ (∀ (ord₁ ord₂ : RangeOrder (Int × UserAgg)) (db : UserStatsStore)
          (username : String),
          getUserStatisticsHandler ord₁ db username
            = getUserStatisticsHandler ord₂ db username)
      ∧ (∀ (ord₁ ord₂ : RangeOrder (Int × LivestreamAgg)) (db : LivestreamStatsStore)
          (livestreamIDParam : String),
          getLivestreamStatisticsHandler ord₁ db livestreamIDParam
            = getLivestreamStatisticsHandler ord₂ db livestreamIDParam) := by
  refine ⟨sortSort_congr h, ?_, getUserStatisticsHandler_order,
    getLivestreamStatisticsHandler_order⟩
  unfold computeRank
  rw [sortSort_congr h]

/-- An instance of C11: bob and alice, tied at 200, appended in either order. -/
theorem rank_independent_of_append_order_witness :
    ([⟨"bob", 200⟩, ⟨"alice", 200⟩] : List UserRankingEntry).Perm
        [⟨"alice", 200⟩, ⟨"bob", 200⟩] ∧
      computeRank ([⟨"bob", 200⟩, ⟨"alice", 200⟩] : List UserRankingEntry) "alice"
        = computeRank ([⟨"alice", 200⟩, ⟨"bob", 200⟩] : List UserRankingEntry) "alice" :=
  ⟨List.Perm.swap _ _ _,
    (rank_independent_of_append_order _ _ "alice" (List.Perm.swap _ _ _)).2.1⟩

/-! ## A target outside the ranking -/

/-- C12. On a ranking slice of `N` entries none of which belongs to the target, the
backward scan runs through the whole slice and yields `N + 1`, before and after
`sort.Sort`, so 1 on the empty slice; nothing signals the absence.  The rank lies in
`[1, N]` exactly when the target has an entry in the slice. -/
theorem rank_of_absent_target {ι : Type} [LinearOrder ι] (ranking : List (RankingEntry ι))
    (target : ι) :
    (target ∉ ranking.map (·.ID) →
        rankScan ranking target = ranking.length + 1 ∧
          computeRank ranking target = ranking.length + 1)
      ∧ rankScan ([] : List (RankingEntry ι)) target = 1
      ∧ ((1 ≤ rankScan ranking target ∧ rankScan ranking target ≤ ranking.length) ↔
          target ∈ ranking.map (·.ID)) := by
  have hscan : ∀ l : List (RankingEntry ι), target ∉ l.map (·.ID) →
      rankScan l target = l.length + 1 := by
    intro l hl
    have hrev : target ∉ (l.map (·.ID)).reverse := by simpa using hl
    rw [rankScan_eq, List.indexOf_eq_length.mpr hrev, List.length_reverse, List.length_map]
    omega
  refine ⟨fun h => ⟨hscan ranking h, ?_⟩, rfl, ?_⟩
  · have hperm := sortSort_perm ranking
    rw [computeRank, hscan (sortSort ranking)
      (fun hmem => h ((hperm.map _).mem_iff.mp hmem)), hperm.length_eq]
  · constructor
    · intro hrange
      by_contra hmem
      rw [hscan ranking hmem] at hrange
      omega
    · intro hmem
      have hrev : target ∈ (ranking.map (·.ID)).reverse := by simpa using hmem
      have hlt := List.indexOf_lt_length.mpr hrev
      rw [List.length_reverse, List.length_map] at hlt
      rw [rankScan_eq]
      omega

/-- An instance of C12: livestream 9 is not among the three ranked livestreams; the scan
yields 4, and the livestream statistics handler, asked for the statistics of a
livestream that the fetched list of all livestreams lacks, returns the record with
rank 4. -/
theorem rank_of_absent_target_witness :
    (9 : Int) ∉ ([⟨3, 200⟩, ⟨5, 9⟩, ⟨7, 200⟩] : List LivestreamRankingEntry).map (·.ID) ∧
      rankScan ([⟨3, 200⟩, ⟨5, 9⟩, ⟨7, 200⟩] : List LivestreamRankingEntry) 9 = 4 ∧
      (getLivestreamStatisticsHandler (RangeOrder.listed _) sampleStoreLackingTarget
          "9").response
        = .json 200
            { Rank := 4, ViewersCount := 7, TotalReactions := 5, TotalReports := 0,
              MaxTip := 200 } :=
  ⟨by decide,
    ((rank_of_absent_target [⟨3, 200⟩, ⟨5, 9⟩, ⟨7, 200⟩] 9).1 (by decide)).1,
    by decide⟩

/-! ## Map lookups -/

theorem GoMap.mem_keys_set {V : Type} (m : GoMap V) (k : Int) (v : V) (k' : Int) :
    k' ∈ (GoMap.set m k v).map (·.1) ↔ k' = k ∨ k' ∈ m.map (·.1) := by
  induction m with
  | nil => simp [GoMap.set]
  | cons p m ih =>
    obtain ⟨a, b⟩ := p
    by_cases h : a = k
    · subst h
      simp [GoMap.set]
    · simp only [GoMap.set, h, if_false, List.map_cons, List.mem_cons, ih]
      tauto

/-- The keys of a map filled from a list are the keys it had and the keys of the list. -/
theorem mem_keys_foldl_set {α V : Type} (key : α → Int) (val : α → V) (l : List α)
    (acc : GoMap V) (k : Int) :
    k ∈ (l.foldl (fun m a => GoMap.set m (key a) (val a)) acc).map (·.1)
      ↔ k ∈ acc.map (·.1) ∨ k ∈ l.map key := by
  induction l generalizing acc with
  | nil => simp
  | cons a l ih =>
    rw [List.foldl_cons, ih, GoMap.mem_keys_set]
    simp only [List.map_cons, List.mem_cons]
    tauto

/-- Writing through the pointer stored under a key of the map succeeds and keeps the
keys. -/
theorem GoMap.modify_of_mem {V : Type} (m : GoMap V) (k : Int) (f : V → V)
    (hk : k ∈ m.map (·.1)) :
    ∃ m', GoMap.modify m k f = some m' ∧ m'.map (·.1) = m.map (·.1) := by
  induction m with
  | nil => simp at hk
  | cons p m ih =>
    obtain ⟨a, b⟩ := p
    by_cases h : a = k
    · exact ⟨(a, f b) :: m, by simp [GoMap.modify, h], rfl⟩
    · have hk' : k ∈ m.map (·.1) := by
        rcases List.mem_cons.mp hk with e | e
        · exact absurd e.symm h
        · exact e
      obtain ⟨m', hm', hkeys⟩ := ih hk'
      exact ⟨(a, b) :: m', by simp [GoMap.modify, h, hm'], by simp [hkeys]⟩

/-- Storing an aggregation result all of whose rows name keys of the map succeeds and
keeps the keys. -/
theorem storeCounts_of_mem {V : Type} (setField : V → Int → V) (rows : List CountRow)
    (m : GoMap V) (h : ∀ r ∈ rows, r.ID ∈ m.map (·.1)) :
    ∃ m', storeCounts setField m rows = some m' ∧ m'.map (·.1) = m.map (·.1) := by
  induction rows generalizing m with
  | nil => exact ⟨m, rfl, rfl⟩
  | cons r rows ih =>
    obtain ⟨m₁, hm₁, hkeys₁⟩ :=
      GoMap.modify_of_mem m r.ID (fun v => setField v r.Count) (h r (List.mem_cons_self _ _))
    obtain ⟨m₂, hm₂, hkeys₂⟩ :=
      ih m₁ (fun r' hr' => hkeys₁ ▸ h r' (List.mem_cons_of_mem _ hr'))
    exact ⟨m₂, by simp [storeCounts, hm₁, hm₂], hkeys₂.trans hkeys₁⟩

/-- Reading the pointer stored under a key of the map gives a struct. -/
theorem GoMap.get?_of_mem {V : Type} (m : GoMap V) (k : Int) (hk : k ∈ m.map (·.1)) :
    ∃ v, GoMap.get? m k = some v := by
  induction m with
  | nil => simp at hk
  | cons p m ih =>
    obtain ⟨a, b⟩ := p
    by_cases h : a = k
    · exact ⟨b, by simp [GoMap.get?, h]⟩
    · have hk' : k ∈ m.map (·.1) := by
        rcases List.mem_cons.mp hk with e | e
        · exact absurd e.symm h
        · exact e
      obtain ⟨v, hv⟩ := ih hk'
      exact ⟨v, by simp [GoMap.get?, h, hv]⟩

theorem mem_keys_makeUserMap (users : List UserRow) (k : Int) :
    k ∈ (makeUserMap users).map (·.1) ↔ k ∈ users.map (·.ID) := by
  unfold makeUserMap
  rw [mem_keys_foldl_set (fun u : UserRow => u.ID)]
  simp

theorem mem_keys_makeLivestreamMap (ids : List Int) (k : Int) :
    k ∈ (makeLivestreamMap ids).map (·.1) ↔ k ∈ ids := by
  unfold makeLivestreamMap
  rw [mem_keys_foldl_set (fun id : Int => id)]
  simp

/-- Under the precondition on the fetched rows, the body of the user statistics handler
dereferences no nil pointer. -/
theorem userStatisticsBody_no_panic (ord : RangeOrder (Int × UserAgg)) (db : UserStatsStore)
    (username : String)
    (hr : ∀ r ∈ db.reactions.dest [], r.ID ∈ (db.users.dest []).map (·.ID))
    (ht : ∀ t ∈ db.tips.dest [], t.ID ∈ (db.users.dest []).map (·.ID))
    (hu : ∀ userID, db.userID = .ok userID → userID ∈ (db.users.dest []).map (·.ID)) :
    (userStatisticsBody ord db username).response ≠ .panicked := by
  rcases hU : db.userID with (_ | _) | userID
  · simp [userStatisticsBody, hU]
  · simp [userStatisticsBody, hU]
  rcases hUs : db.users with e | users
  · simp [userStatisticsBody, hU, hUs]
  rw [hUs] at hr ht hu
  simp only [DbResult.dest] at hr ht hu
  obtain ⟨m₁, hm₁, hkeys₁⟩ := storeCounts_of_mem
    (fun (u : UserAgg) c => { u with reactions := c }) (db.reactions.dest []) (makeUserMap users)
    (fun r h => (mem_keys_makeUserMap users r.ID).mpr (hr r h))
  obtain ⟨m₂, hm₂, hkeys₂⟩ := storeCounts_of_mem
    (fun (u : UserAgg) c => { u with tips := c }) (db.tips.dest []) m₁
    (fun t h => hkeys₁ ▸ (mem_keys_makeUserMap users t.ID).mpr (ht t h))
  obtain ⟨v, hv⟩ := GoMap.get?_of_mem m₂ userID
    (hkeys₂ ▸ hkeys₁ ▸ (mem_keys_makeUserMap users userID).mpr (hu userID hU))
  generalize hb : userStatisticsBody ord db username = b
  unfold userStatisticsBody at hb
  simp only [hU, hUs, hm₁, hm₂, hv] at hb
  repeat' split at hb
  all_goals
    subst hb
    simp

/-- Under the precondition on the fetched rows, the body of the livestream statistics
handler dereferences no nil pointer. -/
theorem livestreamStatisticsBody_no_panic (ord : RangeOrder (Int × LivestreamAgg))
    (db : LivestreamStatsStore) (livestreamID : Int)
    (hr : ∀ r ∈ db.reactions.dest [], r.ID ∈ db.livestreamIDs.dest [])
    (ht : ∀ t ∈ db.totalTips.dest [], t.ID ∈ db.livestreamIDs.dest []) :
    (livestreamStatisticsBody ord db livestreamID).response ≠ .panicked := by
  obtain ⟨m₁, hm₁, hkeys₁⟩ := storeCounts_of_mem
    (fun (v : LivestreamAgg) c => { v with reactions := c }) (db.reactions.dest [])
    (makeLivestreamMap (db.livestreamIDs.dest []))
    (fun r h => (mem_keys_makeLivestreamMap _ r.ID).mpr (hr r h))
  obtain ⟨m₂, hm₂, -⟩ := storeCounts_of_mem
    (fun (v : LivestreamAgg) c => { v with totalTips := c }) (db.totalTips.dest []) m₁
    (fun t h => hkeys₁ ▸ (mem_keys_makeLivestreamMap _ t.ID).mpr (ht t h))
  generalize hb : livestreamStatisticsBody ord db livestreamID = b
  unfold livestreamStatisticsBody at hb
  simp only [hm₁, hm₂] at hb
  repeat' split at hb
  all_goals
    subst hb
    simp

theorem buildUserRanking_isSome (ord : RangeOrder (Int × UserAgg)) (users : List UserRow)
    (reactions tips : List CountRow) (hr : ∀ r ∈ reactions, r.ID ∈ users.map (·.ID))
    (ht : ∀ t ∈ tips, t.ID ∈ users.map (·.ID)) :
    (buildUserRanking ord users reactions tips).isSome = true := by
  obtain ⟨m₁, hm₁, hkeys₁⟩ := storeCounts_of_mem
    (fun (u : UserAgg) c => { u with reactions := c }) reactions (makeUserMap users)
    (fun r h => (mem_keys_makeUserMap users r.ID).mpr (hr r h))
  obtain ⟨m₂, hm₂, -⟩ := storeCounts_of_mem
    (fun (u : UserAgg) c => { u with tips := c }) tips m₁
    (fun t h => hkeys₁ ▸ (mem_keys_makeUserMap users t.ID).mpr (ht t h))
  simp [buildUserRanking, hm₁, hm₂]

theorem buildLivestreamRanking_isSome (ord : RangeOrder (Int × LivestreamAgg))
    (ids : List Int) (reactions totalTips : List CountRow)
    (hr : ∀ r ∈ reactions, r.ID ∈ ids) (ht : ∀ t ∈ totalTips, t.ID ∈ ids) :
    (buildLivestreamRanking ord ids reactions totalTips).isSome = true := by
  obtain ⟨m₁, hm₁, hkeys₁⟩ := storeCounts_of_mem
    (fun (v : LivestreamAgg) c => { v with reactions := c }) reactions (makeLivestreamMap ids)
    (fun r h => (mem_keys_makeLivestreamMap ids r.ID).mpr (hr r h))
  obtain ⟨m₂, hm₂, -⟩ := storeCounts_of_mem
    (fun (v : LivestreamAgg) c => { v with totalTips := c }) totalTips m₁
    (fun t h => hkeys₁ ▸ (mem_keys_makeLivestreamMap ids t.ID).mpr (ht t h))
  simp [buildLivestreamRanking, hm₁, hm₂]

/-- Without the precondition the branch is reachable: a reaction count for a user that
the fetched list of users lacks ends the run in the nil pointer dereference. -/
theorem nil_dereference_reachable (ord : RangeOrder (Int × UserAgg)) :
    (getUserStatisticsHandler ord sampleStoreUnknownSubject "alice").response = .panicked := by
  rfl

/-- C13. With the map lookup returning an option: when every row of the reaction counts
and of the tip sums carries a subject id of the list of subjects fetched earlier in the
transaction (and, for the user handler, the resolved user id is in the fetched list of
users), every lookup that stores a metric and the lookup that reads `total_reactions`
find their entry: the ranking slice is built, and no run of either statistics handler
ends in the nil pointer dereference. -/
theorem map_lookups_succeed :
    (∀ (ord : RangeOrder (Int × UserAgg)) (db : UserStatsStore) (username : String),
      (∀ r ∈ db.reactions.dest [], r.ID ∈ (db.users.dest []).map (·.ID)) →
      (∀ t ∈ db.tips.dest [], t.ID ∈ (db.users.dest []).map (·.ID)) →
      (∀ userID, db.userID = .ok userID → userID ∈ (db.users.dest []).map (·.ID)) →
      (buildUserRanking ord (db.users.dest []) (db.reactions.dest [])
          (db.tips.dest [])).isSome = true ∧
        (getUserStatisticsHandler ord db username).response ≠ .panicked)
    ∧ (∀ (ord : RangeOrder (Int × LivestreamAgg)) (db : LivestreamStatsStore)
        (livestreamIDParam : String),
      (∀ r ∈ db.reactions.dest [], r.ID ∈ db.livestreamIDs.dest []) →
      (∀ t ∈ db.totalTips.dest [], t.ID ∈ db.livestreamIDs.dest []) →
      (buildLivestreamRanking ord (db.livestreamIDs.dest []) (db.reactions.dest [])
          (db.totalTips.dest [])).isSome = true ∧
        (getLivestreamStatisticsHandler ord db livestreamIDParam).response ≠ .panicked) := by
  constructor
  · intro ord db username hr ht hu
    refine ⟨buildUserRanking_isSome ord _ _ _ hr ht, ?_⟩
    generalize hrun : getUserStatisticsHandler ord db username = run
    unfold getUserStatisticsHandler at hrun
    repeat' split at hrun
    all_goals subst hrun
    · simp
    · simp
    · exact userStatisticsBody_no_panic ord db username hr ht hu
  · intro ord db livestreamIDParam hr ht
    refine ⟨buildLivestreamRanking_isSome ord _ _ _ hr ht, ?_⟩
    generalize hrun : getLivestreamStatisticsHandler ord db livestreamIDParam = run
    unfold getLivestreamStatisticsHandler at hrun
    repeat' split at hrun
    all_goals subst hrun
    · simp
    · simp
    · simp
    · exact livestreamStatisticsBody_no_panic ord db _ hr ht

/-- An instance of C13: the sample stores, whose rows name fetched subjects only. -/
theorem map_lookups_succeed_witness :
    (getUserStatisticsHandler (RangeOrder.listed _) sampleUserStore "alice").response
        ≠ .panicked ∧
      (getLivestreamStatisticsHandler (RangeOrder.listed _) sampleLivestreamStore
        "1").response ≠ .panicked :=
  ⟨(map_lookups_succeed.1 (RangeOrder.listed _) sampleUserStore "alice" (by decide)
      (by decide) (fun userID h => by cases h; decide)).2,
    (map_lookups_succeed.2 (RangeOrder.listed _) sampleLivestreamStore "1" (by decide)
      (by decide)).2⟩

end Isucon
